import Mathlib

/-!
FerretDB `find` handler, `$match` stage and `update` reply: a verification development

The handler `MsgFind` (`internal/handlers/pg/msg_find.go`) is embedded statement by
statement.  Functions of the packages `common`, `types` and `wire` that the handler
calls but whose source is not at hand are either fields of `Env` (their
behaviour is left open) or definitions written from the specification; the latter say
so in their doc comment.
-/

namespace FerretDB

/-! ## Value model -/

/-- Modelled from the spec: the declaration of the dynamic value of package `types` is
missing; §3 lists its tags.  `double` carries the IEEE-754 binary64 bit pattern. -/
inductive Value where
  | null
  | bool (b : Bool)
  | int32 (i : Int)
  | int64 (i : Int)
  | double (bits : Nat)
  | string (s : String)
  | binary (subtype : Nat) (bytes : List Nat)
  | objectId (bytes : List Nat)
  | dateTime (ms : Int)
  | timestamp (t : Nat)
  | regex (pattern : String) (flags : String)
  | array (items : List Value)
  | document (fields : List (String × Value))

/-- Modelled from the spec: `types.Document` is missing; §3 makes it an ordered
sequence of (field-name, Value) pairs. -/
abbrev Document := List (String × Value)

/-- Bit pattern of the Go constant `float64(1)`. -/
def float64_1 : Nat := 0x3FF0000000000000

mutual
/-- Structural equality of values (§4.1, strict: tags are never converted). -/
def Value.beq : Value → Value → Bool
  | .null, .null => true
  | .bool a, .bool b => a == b
  | .int32 a, .int32 b => a == b
  | .int64 a, .int64 b => a == b
  | .double a, .double b => a == b
  | .string a, .string b => a == b
  | .binary s a, .binary t b => s == t && a == b
  | .objectId a, .objectId b => a == b
  | .dateTime a, .dateTime b => a == b
  | .timestamp a, .timestamp b => a == b
  | .regex p f, .regex q g => p == q && f == g
  | .array a, .array b => Value.beqList a b
  | .document a, .document b => Value.beqFields a b
  | _, _ => false
/-- Structural equality of arrays. -/
def Value.beqList : List Value → List Value → Bool
  | [], [] => true
  | x :: xs, y :: ys => Value.beq x y && Value.beqList xs ys
  | _, _ => false
/-- Structural equality of documents: same fields, same order. -/
def Value.beqFields : List (String × Value) → List (String × Value) → Bool
  | [], [] => true
  | (k, x) :: xs, (l, y) :: ys => k == l && Value.beq x y && Value.beqFields xs ys
  | _, _ => false
end

/-- Modelled from the spec: `(*types.Document).Get` is missing; §3: "the first
occurrence wins on lookup".  `none` stands for the non-nil error of an absent key. -/
def Document.Get : Document → String → Option Value
  | [], _ => none
  | (k, v) :: rest, key => if k = key then some v else Document.Get rest key

/-- Modelled from the spec: `(*types.Document).Command` is missing; §3 and §6: the
first field name of the root document is the command verb.  The empty document gives
the empty name. -/
def Document.Command : Document → String
  | [] => ""
  | (k, _) :: _ => k

/-- The field is present in the document. -/
def Document.Has (doc : Document) (key : String) : Bool :=
  (Document.Get doc key).isSome

/-! ## Errors, messages, collaborators -/

/-- Error kinds of §4.7; `common.ErrBadValue` and `common.ErrTypeMismatch` are the two
the handler names itself. -/
inductive ErrorCode where
  | ErrBadValue
  | ErrTypeMismatch
  | ErrNotImplemented
  | ErrNamespaceNotFound
  | ErrFailedToParse
  | ErrInternal
  deriving DecidableEq, Repr

/-- A Go `error` value as the handler sees it. -/
inductive Error where
  /-- `common.NewErrorMsg(code, msg)`. -/
  | NewErrorMsg (code : ErrorCode) (msg : String)
  /-- `lazyerrors.Error(err)`. -/
  | lazyerror (err : Error)
  /-- An error made by a collaborator (driver, wire codec, value model). -/
  | foreign (what : String)
  deriving DecidableEq, Repr

/-- Parameters of the backend query: `sqlParam` with the three members the handler
sets. -/
structure sqlParam where
  db : String
  collection : String
  comment : String
  deriving DecidableEq, Repr

/-- `wire.OpMsgSection`, with the member the handler sets. -/
structure OpMsgSection where
  Documents : List Document

/-- `wire.OpMsg`: the sections it holds. -/
structure OpMsg where
  sections : List OpMsgSection

/-- What the handler calls and `msg_find.go` does not define. -/
structure Env where
  /-- `msg.Document()`. -/
  msgDocument : OpMsg → Except Error Document
  /-- Message text of the error of `common.Unimplemented`. -/
  unimplementedText : Document → List String → String
  /-- Error of `common.GetOptionalParam` and `common.GetRequiredParam` for a field
  whose value has another tag than the one asked for. -/
  wrongTypeError : String → Value → Error
  /-- Error of `common.GetRequiredParam` for an absent field. -/
  missingError : String → Error
  /-- Error of `(*types.Document).Get` for an absent key. -/
  getError : String → Error
  /-- `common.GetWholeNumberParam`. -/
  GetWholeNumberParam : Value → Except Error Int
  /-- `common.AliasFromType`. -/
  AliasFromType : Value → String
  /-- `h.fetch(ctx, sp)`: the backend query. -/
  fetch : sqlParam → Except Error (List Document)
  /-- `common.FilterDocument(doc, filter)`. -/
  FilterDocument : Document → Option Document → Except Error Bool
  /-- `common.SortDocuments(docs, sort)`: works in place on the slice, so the number
  of documents is kept. -/
  SortDocuments : (docs : List Document) → Option Document →
    Except Error { r : List Document // r.length = docs.length }
  /-- `common.LimitDocuments(docs, limit)`. -/
  LimitDocuments : List Document → Int → Except Error (List Document)
  /-- `common.ProjectDocuments(docs, projection)`: works in place on the documents of
  the slice, so the number of documents is kept. -/
  ProjectDocuments : (docs : List Document) → Option Document →
    Except Error { r : List Document // r.length = docs.length }
  /-- When `(*types.Array).Append` rejects a value, its error. -/
  appendError : List Value → Value → Option Error
  /-- When `(*wire.OpMsg).SetSections` rejects the sections, its error. -/
  setSectionsError : List OpMsgSection → Option Error

/-! ## Parameter extractor (§4.3) -/

/-- The Go type assertion `v.(*types.Document)`: the target of an optional document
parameter is a pointer, `none` being `nil`. -/
def asDocument : Value → Option (Option Document)
  | .document d => some (some d)
  | _ => none

/-- The Go type assertion `v.(string)`. -/
def asString : Value → Option String
  | .string s => some s
  | _ => none

/-- Modelled from the spec: `common.Unimplemented` is missing; §4.3: fails when any
named field is present, with error `CommandNotImplemented`. -/
def Unimplemented (env : Env) (doc : Document) (fields : List String) : Option Error :=
  if fields.any (fun f => Document.Has doc f) then
    some (Error.NewErrorMsg ErrorCode.ErrNotImplemented (env.unimplementedText doc fields))
  else
    none

/-- Modelled from the spec: `common.GetOptionalParam` is missing; §4.3: fails when the
field is present with a non-T tag, the result is the value of T or the default. -/
def GetOptionalParam {T : Type} (env : Env) (cast : Value → Option T)
    (doc : Document) (key : String) (defaultValue : T) : Except Error T :=
  match Document.Get doc key with
  | none => .ok defaultValue
  | some v =>
    match cast v with
    | some t => .ok t
    | none => .error (env.wrongTypeError key v)

/-- Modelled from the spec: `common.GetRequiredParam` is missing; §4.3: fails when the
field is absent, or present with a non-T tag; the result is the value of T. -/
def GetRequiredParam {T : Type} (env : Env) (cast : Value → Option T)
    (doc : Document) (key : String) : Except Error T :=
  match Document.Get doc key with
  | none => .error (env.missingError key)
  | some v =>
    match cast v with
    | some t => .ok t
    | none => .error (env.wrongTypeError key v)

/-! ## `MsgFind` -/

/-- The `unimplementedFields` literal of `MsgFind`. -/
def unimplementedFields : List String :=
  ["skip", "showRecordId", "tailable", "oplogReplay", "noCursorTimeout", "awaitData",
   "allowPartialResults", "collation", "allowDiskUse", "let"]

/-- The `ignoredFields` literal of `MsgFind`. -/
def ignoredFields : List String :=
  ["hint", "batchSize", "singleBatch", "maxTimeMS", "readConcern", "max", "min",
   "returnKey"]

/-- The local variables of `MsgFind` that are set before the backend is queried. -/
structure FindParams where
  filter : Option Document
  sort : Option Document
  projection : Option Document
  limit : Int
  sp : sqlParam

/-- Lines 73 to 78: `limit` stays 0 unless the field is there, and is then the whole
number `common.GetWholeNumberParam` extracts from it. -/
def limitParam (env : Env) (document : Document) : Except Error Int :=
  match Document.Get document "limit" with
  | none => .ok 0
  | some l => env.GetWholeNumberParam l

/-- Lines 84 to 94: the value of the command-verb field, which must be a string. -/
def collectionParam (env : Env) (document : Document) : Except Error String :=
  match Document.Get document (Document.Command document) with
  | none => .error (env.getError (Document.Command document))
  | some collectionParam =>
    match asString collectionParam with
    | none =>
      .error (Error.NewErrorMsg ErrorCode.ErrBadValue
        ("collection name has invalid type " ++ env.AliasFromType collectionParam))
    | some collection => .ok collection

/-- Lines 101 to 105: the comment of the query, when there is a filter. -/
def filterComment (env : Env) (filter : Option Document) (comment : String) :
    Except Error String :=
  match filter with
  | none => .ok comment
  | some f => GetOptionalParam env asString f "$comment" comment

/-- Lines 35 to 105 of `msg_find.go`: every `return nil, err` before `h.fetch` is an
`.error`.  `common.Ignored` (line 60) only logs and has no result. -/
def findParams (env : Env) (document : Document) : Except Error FindParams :=
  match Unimplemented env document unimplementedFields with
  | some err => .error err
  | none =>
  match GetOptionalParam env asDocument document "filter" none with
  | .error err => .error err
  | .ok filter =>
  match GetOptionalParam env asDocument document "sort" none with
  | .error _ =>
    .error (Error.NewErrorMsg ErrorCode.ErrTypeMismatch "Expected field sort to be of type object")
  | .ok sort =>
  match GetOptionalParam env asDocument document "projection" none with
  | .error err => .error err
  | .ok projection =>
  match limitParam env document with
  | .error err => .error err
  | .ok limit =>
  match GetRequiredParam env asString document "$db" with
  | .error err => .error err
  | .ok db =>
  match collectionParam env document with
  | .error err => .error err
  | .ok collection =>
  match GetOptionalParam env asString document "comment" "" with
  | .error err => .error err
  | .ok comment =>
  match filterComment env filter comment with
  | .error err => .error err
  | .ok comment2 =>
    .ok { filter := filter, sort := sort, projection := projection, limit := limit,
          sp := { db := db, collection := collection, comment := comment2 } }

/-- A call the handler makes to the backend or to the in-memory evaluator, recorded
in the order made. -/
inductive Call where
  | fetch (sp : sqlParam)
  | FilterDocument (doc : Document) (filter : Option Document)

/-- Lines 112 to 124: the loop over `fetchedDocs`; `resDocs` grows by `append`.  The
second component lists the `common.FilterDocument` calls made. -/
def filterLoop (env : Env) (filter : Option Document) :
    List Document → List Document → Except Error (List Document) × List Call
  | [], resDocs => (.ok resDocs, [])
  | doc :: rest, resDocs =>
    match env.FilterDocument doc filter with
    | .error err => (.error err, [Call.FilterDocument doc filter])
    | .ok isMatch =>
      let r := filterLoop env filter rest (if isMatch then resDocs ++ [doc] else resDocs)
      (r.1, Call.FilterDocument doc filter :: r.2)

/-- Modelled from the spec: `(*types.Array).Append` is missing; an Array is an ordered
sequence of Value (§3) and the new value goes to its end unless it is rejected. -/
def Array.Append (env : Env) (arr : List Value) (v : Value) : Except Error (List Value) :=
  match env.appendError arr v with
  | some err => .error err
  | none => .ok (arr ++ [v])

/-- Lines 136 to 141: `firstBatch` starts empty (`types.MakeArray`) and receives the
documents of `resDocs` one by one. -/
def appendLoop (env : Env) : List Document → List Value → Except Error (List Value)
  | [], firstBatch => .ok firstBatch
  | doc :: rest, firstBatch =>
    match Array.Append env firstBatch (Value.document doc) with
    | .error err => .error err
    | .ok firstBatch2 => appendLoop env rest firstBatch2

/-- Modelled from the spec: `(*wire.OpMsg).SetSections` is missing; the reply holds
the sections given unless they are rejected. -/
def OpMsg.SetSections (env : Env) (sections : List OpMsgSection) : Except Error OpMsg :=
  match env.setSectionsError sections with
  | some err => .error err
  | none => .ok { sections := sections }

/-- Lines 145 to 152: the reply document.  `types.NewDocument` is given literal,
distinct keys, so `must.NotFail` returns its document. -/
def replyDocument (firstBatch : List Value) (sp : sqlParam) : Document :=
  [("cursor", Value.document
      [("firstBatch", Value.array firstBatch),
       ("id", Value.int64 0),
       ("ns", Value.string (sp.db ++ "." ++ sp.collection))]),
   ("ok", Value.double float64_1)]

/-- The two results of the Go function, `(*wire.OpMsg, error)`, and the calls made. -/
structure FindResult where
  reply : Option OpMsg
  err : Option Error
  calls : List Call

/-- Lines 107 to 158 of `msg_find.go`, from `h.fetch` on. -/
def findRun (env : Env) (p : FindParams) : FindResult :=
  match env.fetch p.sp with
  | .error err => { reply := none, err := some err, calls := [Call.fetch p.sp] }
  | .ok fetchedDocs =>
  let fl := filterLoop env p.filter fetchedDocs []
  let calls := Call.fetch p.sp :: fl.2
  match fl.1 with
  | .error err => { reply := none, err := some err, calls := calls }
  | .ok resDocs =>
  match env.SortDocuments resDocs p.sort with
  | .error err => { reply := none, err := some err, calls := calls }
  | .ok sorted =>
  match env.LimitDocuments sorted.1 p.limit with
  | .error err => { reply := none, err := some err, calls := calls }
  | .ok limited =>
  match env.ProjectDocuments limited p.projection with
  | .error err => { reply := none, err := some err, calls := calls }
  | .ok projected =>
  match appendLoop env projected.1 [] with
  | .error err => { reply := none, err := some err, calls := calls }
  | .ok firstBatch =>
  match OpMsg.SetSections env [{ Documents := [replyDocument firstBatch p.sp] }] with
  | .error err => { reply := none, err := some (Error.lazyerror err), calls := calls }
  | .ok reply => { reply := some reply, err := none, calls := calls }

/-- `MsgFind` of `msg_find.go` (lines 29 to 159). -/
def MsgFind (env : Env) (msg : OpMsg) : FindResult :=
  match env.msgDocument msg with
  | .error err => { reply := none, err := some (Error.lazyerror err), calls := [] }
  | .ok document =>
    match findParams env document with
    | .error err => { reply := none, err := some err, calls := [] }
    | .ok p => findRun env p

/-- The in-memory evaluator accepts the document: `matches` of line 114 is `true` and
`err` is `nil`. -/
def keptByFilter (env : Env) (filter : Option Document) (doc : Document) : Bool :=
  match env.FilterDocument doc filter with
  | .ok true => true
  | _ => false

/-! ## The `$match` stage (package `common`): path lowering, predicate parsing, `ToSql`

`FieldToSql`, `ParseMatchStage`, `GetFilters` and `ToSql` are exercised by
`stage_test.go`; their source is not at hand. -/

/-- The segments of a dotted path: the text between the dots. -/
def splitPath : List Char → List (List Char)
  | [] => [[]]
  | c :: cs =>
    if c = '.' then [] :: splitPath cs
    else
      match splitPath cs with
      | seg :: segs => (c :: seg) :: segs
      | [] => [[c]]

/-- The accessors of the segments of a path: the JSON-value accessor for the final
segment, the text-extraction accessor for the ones before it. -/
def accessors : List (List Char) → String
  | [] => ""
  | [last] => "->'" ++ String.mk last ++ "'"
  | seg :: rest => "->>'" ++ String.mk seg ++ "'" ++ accessors rest

/-- Modelled from the spec: `common.FieldToSql` is missing; §4.4 and §6: the column is
`_jsonb`, every segment but the final one uses the accessor `->>`, the final one `->`,
with no blanks (the mapping of §6 is bit-exact). -/
def FieldToSql (field : String) : String :=
  "_jsonb" ++ accessors (splitPath field.toList)

/-- Modelled from the spec: the filter tree of §3; `op` is the textual backend form of
the comparison, as the tests read it from the member `op`. -/
inductive Filter where
  | Comparison (field : String) (op : String) (value : Value)
  | LogicalAnd (children : List Filter)
  | LogicalOr (children : List Filter)
  | LogicalNot (child : Filter)
  | Exists (field : String) (present : Bool)
  | TypeIs (field : String) (tag : Value)

/-- Modelled from the spec: the `Stage` handle of §4.6, holding the individual filters
of the predicate. -/
structure Stage where
  filters : List Filter

/-- `(*Stage).GetFilters`. -/
def Stage.GetFilters (stage : Stage) : List Filter := stage.filters

/-- The name starts with `$`. -/
def isOperatorName (name : String) : Bool := name.toList.head? == some '$'

/-- The member `field` of a filter, which the tests read; the logical nodes have no
path. -/
def Filter.field : Filter → Option String
  | .Comparison field _ _ => some field
  | .Exists field _ => some field
  | .TypeIs field _ => some field
  | _ => none

/-- The operator names of rule 2 of §4.4. -/
def comparisonOperators : List String :=
  ["$eq", "$ne", "$gt", "$gte", "$lt", "$lte", "$exists", "$type"]

/-- The filter of a predicate document with these individual filters: more than one
pair combine as `LogicalAnd` (§4.4, implicit conjunction). -/
def conjunction : List Filter → Filter
  | [f] => f
  | fs => Filter.LogicalAnd fs

/-- Rule 2 of §4.4, one field of an operator document over the path `field`; the
comparison operators carry their textual backend form. -/
def parseOperator (field : String) (name : String) (operand : Value) :
    Except ErrorCode (List Filter) :=
  if name = "$eq" then .ok [Filter.Comparison field "=" operand]
  else if name = "$ne" then .ok [Filter.Comparison field "<>" operand]
  else if name = "$gt" then .ok [Filter.Comparison field ">" operand]
  else if name = "$gte" then .ok [Filter.Comparison field ">=" operand]
  else if name = "$lt" then .ok [Filter.Comparison field "<" operand]
  else if name = "$lte" then .ok [Filter.Comparison field "<=" operand]
  else if name = "$exists" then
    match operand with
    | .bool b => .ok [Filter.Exists field b]
    | _ => .error ErrorCode.ErrBadValue
  else if name = "$type" then .ok [Filter.TypeIs field operand]
  else .error ErrorCode.ErrBadValue

/-- Rule 2 of §4.4: every field of the operator document is an operator over the
path. -/
def parseOperators (field : String) : List (String × Value) → Except ErrorCode (List Filter)
  | [] => .ok []
  | (name, operand) :: rest =>
    match parseOperator field name operand with
    | .error e => .error e
    | .ok fs =>
      match parseOperators field rest with
      | .error e => .error e
      | .ok gs => .ok (fs ++ gs)

mutual
/-- The pairs of a predicate document, in iteration order (§4.4). -/
def parsePredicate : List (String × Value) → Except ErrorCode (List Filter)
  | [] => .ok []
  | (field, value) :: rest =>
    match parsePair field value with
    | .error e => .error e
    | .ok fs =>
      match parsePredicate rest with
      | .error e => .error e
      | .ok gs => .ok (fs ++ gs)
/-- One (field, value) pair: rule 1 for a name that starts with `$`, rules 2 and 3 for
a dotted path. -/
def parsePair (field : String) (value : Value) : Except ErrorCode (List Filter) :=
  if isOperatorName field then
    if field = "$and" then
      match value with
      | .array items =>
        match parseChildren items with
        | .error e => .error e
        | .ok cs => .ok [Filter.LogicalAnd cs]
      | _ => .error ErrorCode.ErrBadValue
    else if field = "$or" then
      match value with
      | .array items =>
        match parseChildren items with
        | .error e => .error e
        | .ok cs => .ok [Filter.LogicalOr cs]
      | _ => .error ErrorCode.ErrBadValue
    else if field = "$not" then
      match value with
      | .document sub =>
        match parsePredicate sub with
        | .error e => .error e
        | .ok cs => .ok [Filter.LogicalNot (conjunction cs)]
      | _ => .error ErrorCode.ErrBadValue
    else if field = "$comment" then .ok []
    else .error ErrorCode.ErrBadValue
  else
    match value with
    | .document sub =>
      if sub.any (fun kv => isOperatorName kv.1) then
        if sub.all (fun kv => isOperatorName kv.1) then parseOperators field sub
        else .error ErrorCode.ErrBadValue
      else .ok [Filter.Comparison field "=" (Value.document sub)]
    | v => .ok [Filter.Comparison field "=" v]
/-- The predicate documents of the array of `$and` and `$or`. -/
def parseChildren : List Value → Except ErrorCode (List Filter)
  | [] => .ok []
  | .document d :: rest =>
    match parsePredicate d with
    | .error e => .error e
    | .ok fs =>
      match parseChildren rest with
      | .error e => .error e
      | .ok gs => .ok (conjunction fs :: gs)
  | _ :: _ => .error ErrorCode.ErrBadValue
end

/-- Modelled from the spec: `common.ParseMatchStage` is missing; §4.4 gives the parsing
rules over the top-level pairs of the predicate, §4.6 the stage that exposes the
individual filters. -/
def ParseMatchStage (doc : Document) : Except ErrorCode Stage :=
  match parsePredicate doc with
  | .error e => .error e
  | .ok fs => .ok { filters := fs }

mutual
/-- Lowering of a filter from the binding index `k` on (§4.4); the result holds the
next free index.  The spec gives no backend form to `Exists` and `TypeIs`: they are
not lowered. -/
def lower : Filter → Nat → Option (String × Nat)
  | .Comparison field op _, k =>
    some (FieldToSql field ++ " " ++ op ++ " $" ++ toString k, k + 1)
  | .LogicalAnd cs, k => (lowerAll " AND " cs k).map (fun r => ("(" ++ r.1 ++ ")", r.2))
  | .LogicalOr cs, k => (lowerAll " OR " cs k).map (fun r => ("(" ++ r.1 ++ ")", r.2))
  | .LogicalNot c, k => (lower c k).map (fun r => ("NOT (" ++ r.1 ++ ")", r.2))
  | .Exists _ _, _ => none
  | .TypeIs _ _, _ => none
/-- The children of a logical node, joined by the separator, left to right. -/
def lowerAll (sep : String) : List Filter → Nat → Option (String × Nat)
  | [], k => some ("", k)
  | [c], k => lower c k
  | c :: cs, k =>
    match lower c k with
    | none => none
    | some (s, k2) =>
      match lowerAll sep cs k2 with
      | none => none
      | some (t, k3) => some (s ++ sep ++ t, k3)
end

/-- Modelled from the spec: the method `ToSql` of a filter is missing; §4.4: the
backend expression of the filter, its placeholders numbered from 1.  `none` stands for
the error of a filter that is not lowered. -/
def Filter.ToSql (f : Filter) : Option String :=
  (lower f 1).map Prod.fst

/-! ## The `update` command (§4.6)

The handler of `update` is not at hand; `update_test.go` runs the command
against a seeded collection. -/

/-- Modelled from the spec: one element of `updates` (§3: query, update, multi,
upsert), with its query compiled to a selector and its update operators taken as
their effect on a document; `equalities` holds the equality constraints of the
query. -/
structure UpdateElement where
  q : Document → Bool
  equalities : Document
  u : Document → Document
  multi : Bool
  upsert : Bool

/-- The matched documents the element applies to: all of them when `multi` is true,
else at most one, the first in the order the backend returns them. -/
def updateTargets (e : UpdateElement) (collection : List Document) : List Document :=
  if e.multi then collection.filter e.q else (collection.filter e.q).take 1

/-- The update applied to the first matched document only. -/
def applyFirst (e : UpdateElement) : List Document → List Document
  | [] => []
  | d :: ds => if e.q d then e.u d :: ds else d :: applyFirst e ds

/-- The collection after the update was applied to the targets. -/
def applyUpdate (e : UpdateElement) (collection : List Document) : List Document :=
  if e.multi then collection.map (fun d => if e.q d then e.u d else d)
  else applyFirst e collection

/-- The document an upsert inserts: the equality constraints of the query, plus the
effect of the update operators on an empty document, with a fresh `_id` in front when
there is none. -/
def upsertDocument (freshId : Value) (e : UpdateElement) : Document :=
  let fields := e.equalities ++ e.u []
  if Document.Has fields "_id" then fields else ("_id", freshId) :: fields

/-- What the reply counts: matched-or-upserted, strictly modified, and the `_id`
values of the upserts. -/
structure UpdateStats where
  n : Nat
  nModified : Nat
  upserted : List Value

/-- Modelled from the spec: the per-element step of `update` (§4.6).  With no match and
`upsert` set, one document is inserted and counted in `n` only; otherwise the update
is applied to the targets, `n` counts them and `nModified` those it changed. -/
def updateElement (freshId : Value) (collection : List Document) (e : UpdateElement) :
    UpdateStats × List Document :=
  if (collection.filter e.q).isEmpty && e.upsert then
    let doc := upsertDocument freshId e
    ({ n := 1, nModified := 0, upserted := (Document.Get doc "_id").toList },
     collection ++ [doc])
  else
    ({ n := (updateTargets e collection).length,
       nModified := ((updateTargets e collection).filter
         (fun d => !Value.beqFields (e.u d) d)).length,
       upserted := [] },
     applyUpdate e collection)

/-- The elements of `updates` in order, each on the collection the ones before it
left; the counts add up. -/
def updateAll (freshId : Value) :
    List Document → List UpdateElement → UpdateStats × List Document
  | collection, [] => ({ n := 0, nModified := 0, upserted := [] }, collection)
  | collection, e :: rest =>
    let r := updateElement freshId collection e
    let t := updateAll freshId r.2 rest
    ({ n := r.1.n + t.1.n, nModified := r.1.nModified + t.1.nModified,
       upserted := r.1.upserted ++ t.1.upserted }, t.2)

/-- A count of the reply: Int32 unless overflow requires Int64 (§6). -/
def countValue (k : Nat) : Value :=
  if k < 2 ^ 31 then Value.int32 k else Value.int64 k

/-- Modelled from the spec: the reply of `update` (§4.6): `n`, `nModified`, `upserted`
when there was an upsert, and `ok` as the Double 1.0. -/
def updateReply (freshId : Value) (collection : List Document)
    (updates : List UpdateElement) : Document :=
  let stats := (updateAll freshId collection updates).1
  [("n", countValue stats.n), ("nModified", countValue stats.nModified)] ++
    (if stats.upserted.isEmpty then [] else [("upserted", Value.array stats.upserted)]) ++
    [("ok", Value.double float64_1)]

/-- Replaces the value of the first field of that name, or adds the field at the
end. -/
def setField (key : String) (v : Value) : Document → Document
  | [] => [(key, v)]
  | (k, w) :: rest => if k = key then (k, v) :: rest else (k, w) :: setField key v rest

/-- The element `q: (v: 42), u: ($set: (v: 43))` of `TestMultiFlag`: the selector asks
for the Int32 42 in `v`, the update puts the Int32 43 there. -/
def set43 (multi : Bool) : UpdateElement where
  q := fun d =>
    match Document.Get d "v" with
    | some w => Value.beq w (Value.int32 42)
    | none => false
  equalities := [("v", Value.int32 42)]
  u := setField "v" (Value.int32 43)
  multi := multi
  upsert := false

/-- Six stored documents whose `v` is 42, and one other. -/
def seeded : List Document :=
  [[("_id", Value.string "a"), ("v", Value.int32 42)],
   [("_id", Value.string "b"), ("v", Value.int32 42)],
   [("_id", Value.string "c"), ("v", Value.string "foo")],
   [("_id", Value.string "d"), ("v", Value.int32 42)],
   [("_id", Value.string "e"), ("v", Value.int32 42)],
   [("_id", Value.string "f"), ("v", Value.int32 42)],
   [("_id", Value.string "g"), ("v", Value.int32 42)]]

/-! ## A small instance of the collaborators, to run the handler on concrete requests -/

/-- A stand-in evaluator: every pair of the filter whose name does not start with `$`
must be found in the document with an equal value. -/
def demoFilterDocument (doc : Document) (filter : Option Document) : Except Error Bool :=
  match filter with
  | none => .ok true
  | some f =>
    .ok (f.all (fun kv =>
      kv.1.toList.head? == some '$' ||
      (match Document.Get doc kv.1 with
       | some w => Value.beq w kv.2
       | none => false)))

/-- A stand-in for the whole-number extraction: the two integer tags. -/
def demoGetWholeNumberParam : Value → Except Error Int
  | .int32 i => .ok i
  | .int64 i => .ok i
  | _ => .error (Error.NewErrorMsg ErrorCode.ErrBadValue "not a whole number")

/-- Collaborators over a backend that returns the given documents for every query:
the message holds one section with one document, sort and projection leave the
documents as they are, the limit keeps the first `|limit|` documents (all for 0). -/
def demoEnv (backend : List Document) : Env where
  msgDocument := fun msg =>
    match msg.sections with
    | [{ Documents := [d] }] => .ok d
    | _ => .error (Error.foreign "no single document")
  unimplementedText := fun _ _ => "not implemented"
  wrongTypeError := fun key _ =>
    Error.NewErrorMsg ErrorCode.ErrTypeMismatch ("wrong type of field " ++ key)
  missingError := fun key =>
    Error.NewErrorMsg ErrorCode.ErrBadValue ("required parameter is missing: " ++ key)
  getError := fun key => Error.foreign ("key not found: " ++ key)
  GetWholeNumberParam := demoGetWholeNumberParam
  AliasFromType := fun _ => "other"
  fetch := fun _ => .ok backend
  FilterDocument := demoFilterDocument
  SortDocuments := fun docs _ => .ok ⟨docs, rfl⟩
  LimitDocuments := fun docs limit => .ok (if limit = 0 then docs else docs.take limit.natAbs)
  ProjectDocuments := fun docs _ => .ok ⟨docs, rfl⟩
  appendError := fun _ _ => none
  setSectionsError := fun _ => none

/-- Three stored documents. -/
def demoBackend : List Document :=
  [[("_id", Value.int32 1), ("v", Value.int32 42)],
   [("_id", Value.int32 2), ("v", Value.int32 7)],
   [("_id", Value.int32 3), ("v", Value.int32 42)]]

/-- The message whose single document is the given request. -/
def requestMsg (document : Document) : OpMsg :=
  { sections := [{ Documents := [document] }] }

/-- The request `find: "values", $db: "test", filter: (v: 42), limit: 1`. -/
def demoFind : Document :=
  [("find", Value.string "values"),
   ("$db", Value.string "test"),
   ("filter", Value.document [("v", Value.int32 42)]),
   ("limit", Value.int32 1)]

/-- The request `find: "values", $db: "test", sort: 1`. -/
def badSortFind : Document :=
  [("find", Value.string "values"), ("$db", Value.string "test"), ("sort", Value.int32 1)]

/-- A filter with a `$comment`. -/
def commentFilter : Document :=
  [("$comment", Value.string "test"), ("v", Value.int32 42)]

/-- The request `find: "values", $db: "test", comment: "top", filter: commentFilter`. -/
def commentFind : Document :=
  [("find", Value.string "values"), ("$db", Value.string "test"),
   ("comment", Value.string "top"), ("filter", Value.document commentFilter)]

/-! ## Theorems -/

theorem asString_some {v : Value} {s : String} (h : asString v = some s) :
    v = Value.string s := by
  cases v <;> simp [asString] at h
  subst h; rfl

theorem asDocument_some {v : Value} {d : Option Document} (h : asDocument v = some d) :
    ∃ f, v = Value.document f ∧ d = some f := by
  cases v <;> simp [asDocument] at h
  exact ⟨_, rfl, h.symm⟩

theorem GetRequiredParam_string_ok {env : Env} {doc : Document} {key s : String}
    (h : GetRequiredParam env asString doc key = .ok s) :
    Document.Get doc key = some (Value.string s) := by
  unfold GetRequiredParam at h
  split at h
  · cases h
  · rename_i v hv
    split at h
    · rename_i t ht
      cases h
      rw [hv, asString_some ht]
    · cases h

theorem collectionParam_ok {env : Env} {document : Document} {collection : String}
    (h : collectionParam env document = .ok collection) :
    Document.Get document (Document.Command document) = some (Value.string collection) := by
  unfold collectionParam at h
  split at h
  · cases h
  · rename_i v hv
    split at h
    · cases h
    · rename_i c hc
      cases h
      rw [hv, asString_some hc]

/-- Everything `findParams` has checked when it returns its record. -/
theorem findParams_ok {env : Env} {document : Document} {p : FindParams}
    (h : findParams env document = .ok p) :
    Unimplemented env document unimplementedFields = none ∧
    GetOptionalParam env asDocument document "filter" none = .ok p.filter ∧
    GetOptionalParam env asDocument document "sort" none = .ok p.sort ∧
    GetOptionalParam env asDocument document "projection" none = .ok p.projection ∧
    limitParam env document = .ok p.limit ∧
    GetRequiredParam env asString document "$db" = .ok p.sp.db ∧
    collectionParam env document = .ok p.sp.collection ∧
    ∃ comment, GetOptionalParam env asString document "comment" "" = .ok comment ∧
      filterComment env p.filter comment = .ok p.sp.comment := by
  unfold findParams at h
  split at h
  · cases h
  rename_i hU
  split at h
  · cases h
  rename_i filter hF
  split at h
  · cases h
  rename_i sort hS
  split at h
  · cases h
  rename_i projection hP
  split at h
  · cases h
  rename_i limit hL
  split at h
  · cases h
  rename_i db hD
  split at h
  · cases h
  rename_i collection hC
  split at h
  · cases h
  rename_i comment hK
  split at h
  · cases h
  rename_i comment2 hK2
  cases h
  exact ⟨hU, hF, hS, hP, hL, hD, hC, comment, hK, hK2⟩

theorem filterLoop_ok (env : Env) (filter : Option Document) (docs : List Document) :
    ∀ (acc resDocs : List Document), (filterLoop env filter docs acc).1 = .ok resDocs →
      resDocs = acc ++ docs.filter (keptByFilter env filter) := by
  induction docs with
  | nil =>
    intro acc resDocs h
    simp [filterLoop] at h
    simp [h]
  | cons doc rest ih =>
    intro acc resDocs h
    unfold filterLoop at h
    cases hf : env.FilterDocument doc filter with
    | error e => rw [hf] at h; simp at h
    | ok b =>
      rw [hf] at h
      simp only at h
      have := ih _ _ h
      cases b <;> simp [List.filter, keptByFilter, hf, this]

theorem filterLoop_calls (env : Env) (filter : Option Document) (docs : List Document) :
    ∀ (acc : List Document), ∀ c ∈ (filterLoop env filter docs acc).2,
      ∃ doc, doc ∈ docs ∧ c = Call.FilterDocument doc filter := by
  induction docs with
  | nil =>
    intro acc c hc
    simp [filterLoop] at hc
  | cons doc rest ih =>
    intro acc c hc
    unfold filterLoop at hc
    cases hf : env.FilterDocument doc filter with
    | error e =>
      rw [hf] at hc
      simp at hc
      exact ⟨doc, by simp, hc⟩
    | ok b =>
      rw [hf] at hc
      simp only [List.mem_cons] at hc
      rcases hc with hc | hc
      · exact ⟨doc, by simp, hc⟩
      · obtain ⟨d, hd, hcd⟩ := ih _ c hc
        exact ⟨d, by simp [hd], hcd⟩

theorem appendLoop_ok (env : Env) (docs : List Document) :
    ∀ (acc firstBatch : List Value), appendLoop env docs acc = .ok firstBatch →
      firstBatch = acc ++ docs.map Value.document := by
  induction docs with
  | nil =>
    intro acc firstBatch h
    simp [appendLoop] at h
    simp [h]
  | cons doc rest ih =>
    intro acc firstBatch h
    unfold appendLoop Array.Append at h
    cases ha : env.appendError acc (Value.document doc) with
    | some e => rw [ha] at h; simp at h
    | none =>
      rw [ha] at h
      simp only at h
      simp [ih _ _ h]

/-- What a run of `findRun` without error has gone through. -/
theorem findRun_ok {env : Env} {p : FindParams} (h : (findRun env p).err = none) :
    ∃ fetchedDocs sorted limited projected,
      env.fetch p.sp = .ok fetchedDocs ∧
      env.SortDocuments (fetchedDocs.filter (keptByFilter env p.filter)) p.sort = .ok sorted ∧
      env.LimitDocuments sorted.1 p.limit = .ok limited ∧
      env.ProjectDocuments limited p.projection = .ok projected ∧
      (findRun env p).reply = some
        { sections := [{ Documents :=
            [replyDocument (projected.1.map Value.document) p.sp] }] } := by
  unfold findRun at h
  cases hfe : env.fetch p.sp with
  | error e => rw [hfe] at h; simp at h
  | ok fetchedDocs =>
  rw [hfe] at h
  simp only at h
  cases hfl : (filterLoop env p.filter fetchedDocs []).1 with
  | error e => rw [hfl] at h; simp at h
  | ok resDocs =>
  rw [hfl] at h
  simp only at h
  have hres := filterLoop_ok env p.filter fetchedDocs [] resDocs hfl
  simp only [List.nil_append] at hres
  subst hres
  cases hso : env.SortDocuments (fetchedDocs.filter (keptByFilter env p.filter)) p.sort with
  | error e => rw [hso] at h; simp at h
  | ok sorted =>
  rw [hso] at h
  simp only at h
  cases hli : env.LimitDocuments sorted.1 p.limit with
  | error e => rw [hli] at h; simp at h
  | ok limited =>
  rw [hli] at h
  simp only at h
  cases hpr : env.ProjectDocuments limited p.projection with
  | error e => rw [hpr] at h; simp at h
  | ok projected =>
  rw [hpr] at h
  simp only at h
  cases hap : appendLoop env projected.1 [] with
  | error e => rw [hap] at h; simp at h
  | ok firstBatch =>
  rw [hap] at h
  simp only at h
  have hfb := appendLoop_ok env projected.1 [] firstBatch hap
  simp only [List.nil_append] at hfb
  subst hfb
  unfold OpMsg.SetSections at h
  cases hse : env.setSectionsError
      [{ Documents := [replyDocument (projected.1.map Value.document) p.sp] }] with
  | some e => rw [hse] at h; simp at h
  | none =>
    refine ⟨fetchedDocs, sorted, limited, projected, rfl, hso, hli, hpr, ?_⟩
    simp only [findRun, hfe, hfl, hso, hli, hpr, hap, OpMsg.SetSections, hse]

theorem findRun_xor (env : Env) (p : FindParams) :
    ((findRun env p).reply ≠ none ∧ (findRun env p).err = none) ∨
    ((findRun env p).reply = none ∧ (findRun env p).err ≠ none) := by
  by_cases h : (findRun env p).err = none
  · obtain ⟨_, _, _, _, _, _, _, _, hr⟩ := findRun_ok h
    left
    exact ⟨by rw [hr]; simp, h⟩
  · right
    refine ⟨?_, h⟩
    revert h
    unfold findRun
    split
    · simp
    · simp only
      repeat' split
      all_goals simp

theorem findRun_calls (env : Env) (p : FindParams) :
    ∃ rest, (findRun env p).calls = Call.fetch p.sp :: rest ∧
      ∀ c ∈ rest, ∃ doc, c = Call.FilterDocument doc p.filter := by
  unfold findRun
  cases hfe : env.fetch p.sp with
  | error e => exact ⟨[], rfl, by simp⟩
  | ok fetchedDocs =>
    refine ⟨(filterLoop env p.filter fetchedDocs []).2, ?_, ?_⟩
    · simp only
      repeat' split
      all_goals rfl
    · intro c hc
      obtain ⟨d, _, hd⟩ := filterLoop_calls env p.filter fetchedDocs [] c hc
      exact ⟨d, hd⟩

/-- C8: for every input message, `MsgFind` returns either a reply and no error, or no
reply and an error; never both and never neither. -/
theorem C8_reply_xor_error (env : Env) (msg : OpMsg) :
    ((MsgFind env msg).reply ≠ none ∧ (MsgFind env msg).err = none) ∨
    ((MsgFind env msg).reply = none ∧ (MsgFind env msg).err ≠ none) := by
  unfold MsgFind
  split
  · right; simp
  · split
    · right; simp
    · exact findRun_xor env _

/-- A run of `MsgFind` without error went through the decoding of the message, the
parameter extraction and `findRun`. -/
theorem MsgFind_ok {env : Env} {msg : OpMsg} (h : (MsgFind env msg).err = none) :
    ∃ document p, env.msgDocument msg = .ok document ∧ findParams env document = .ok p ∧
      MsgFind env msg = findRun env p := by
  unfold MsgFind at h
  cases hd : env.msgDocument msg with
  | error e => rw [hd] at h; simp at h
  | ok document =>
    rw [hd] at h
    simp only at h
    cases hp : findParams env document with
    | error e => rw [hp] at h; simp at h
    | ok p =>
      refine ⟨document, p, rfl, hp, ?_⟩
      simp only [MsgFind, hd, hp]

/-- C1: when `MsgFind` succeeds, the reply carries exactly one document with the fields
`cursor` and `ok` in this order; `ok` is the Double 1.0; `cursor` is a document with
the fields `firstBatch` (an array), `id` (the 64-bit integer 0) and `ns`, the string
made of the `$db` value of the request, a dot and the collection name, which is the
value of the first (command verb) field of the request. -/
theorem C1_reply_shape (env : Env) (msg : OpMsg) (h : (MsgFind env msg).err = none) :
    ∃ (document : Document) (db collection : String) (firstBatch : List Value),
      env.msgDocument msg = .ok document ∧
      Document.Get document "$db" = some (Value.string db) ∧
      Document.Get document (Document.Command document) = some (Value.string collection) ∧
      (MsgFind env msg).reply = some
        { sections := [{ Documents := [
            [("cursor", Value.document
                [("firstBatch", Value.array firstBatch),
                 ("id", Value.int64 0),
                 ("ns", Value.string (db ++ "." ++ collection))]),
             ("ok", Value.double 0x3FF0000000000000)]] }] } := by
  obtain ⟨document, p, hd, hp, hrun⟩ := MsgFind_ok h
  rw [hrun] at h
  obtain ⟨_, _, _, projected, _, _, _, _, hr⟩ := findRun_ok h
  obtain ⟨_, _, _, _, _, hdb, hcoll, _⟩ := findParams_ok hp
  refine ⟨document, p.sp.db, p.sp.collection, projected.1.map Value.document, hd,
    GetRequiredParam_string_ok hdb, collectionParam_ok hcoll, ?_⟩
  rw [hrun, hr]
  rfl

/-- C1, on the request `demoFind` over `demoBackend`. -/
theorem C1_reply_shape_witness :
    (MsgFind (demoEnv demoBackend) (requestMsg demoFind)).err = none ∧
    ∃ (document : Document) (db collection : String) (firstBatch : List Value),
      (demoEnv demoBackend).msgDocument (requestMsg demoFind) = .ok document ∧
      Document.Get document "$db" = some (Value.string db) ∧
      Document.Get document (Document.Command document) = some (Value.string collection) ∧
      (MsgFind (demoEnv demoBackend) (requestMsg demoFind)).reply = some
        { sections := [{ Documents := [
            [("cursor", Value.document
                [("firstBatch", Value.array firstBatch),
                 ("id", Value.int64 0),
                 ("ns", Value.string (db ++ "." ++ collection))]),
             ("ok", Value.double 0x3FF0000000000000)]] }] } :=
  ⟨rfl, C1_reply_shape (demoEnv demoBackend) (requestMsg demoFind) rfl⟩

/-- C6: when `MsgFind` succeeds, `firstBatch` is made by filter, sort, limit and
projection in this order: the fetched documents accepted by `FilterDocument`, each
once and in the order the backend returned them, go to `SortDocuments`, its result to
`LimitDocuments`, its result to `ProjectDocuments`; the array holds the documents that
come out, in their order, and is as long as the limited list. -/
theorem C6_first_batch_pipeline (env : Env) (msg : OpMsg)
    (h : (MsgFind env msg).err = none) :
    ∃ (document : Document) (p : FindParams) (fetchedDocs : List Document)
      (sorted : { r : List Document //
        r.length = (fetchedDocs.filter (keptByFilter env p.filter)).length })
      (limited : List Document) (projected : { r : List Document // r.length = limited.length }),
      env.msgDocument msg = .ok document ∧
      findParams env document = .ok p ∧
      env.fetch p.sp = .ok fetchedDocs ∧
      env.SortDocuments (fetchedDocs.filter (keptByFilter env p.filter)) p.sort = .ok sorted ∧
      env.LimitDocuments sorted.1 p.limit = .ok limited ∧
      env.ProjectDocuments limited p.projection = .ok projected ∧
      (MsgFind env msg).reply = some
        { sections := [{ Documents :=
            [replyDocument (projected.1.map Value.document) p.sp] }] } ∧
      (projected.1.map Value.document).length = limited.length := by
  obtain ⟨document, p, hd, hp, hrun⟩ := MsgFind_ok h
  rw [hrun] at h
  obtain ⟨fetchedDocs, sorted, limited, projected, hfe, hso, hli, hpr, hr⟩ := findRun_ok h
  refine ⟨document, p, fetchedDocs, sorted, limited, projected, hd, hp, hfe, hso, hli, hpr,
    ?_, ?_⟩
  · rw [hrun, hr]
  · rw [List.length_map]
    exact projected.2

/-- C6, on the request `demoFind` over `demoBackend`. -/
theorem C6_first_batch_pipeline_witness :
    (MsgFind (demoEnv demoBackend) (requestMsg demoFind)).err = none ∧
    ∃ (document : Document) (p : FindParams) (fetchedDocs : List Document)
      (sorted : { r : List Document //
        r.length = (fetchedDocs.filter (keptByFilter (demoEnv demoBackend) p.filter)).length })
      (limited : List Document) (projected : { r : List Document // r.length = limited.length }),
      (demoEnv demoBackend).msgDocument (requestMsg demoFind) = .ok document ∧
      findParams (demoEnv demoBackend) document = .ok p ∧
      (demoEnv demoBackend).fetch p.sp = .ok fetchedDocs ∧
      (demoEnv demoBackend).SortDocuments
        (fetchedDocs.filter (keptByFilter (demoEnv demoBackend) p.filter)) p.sort = .ok sorted ∧
      (demoEnv demoBackend).LimitDocuments sorted.1 p.limit = .ok limited ∧
      (demoEnv demoBackend).ProjectDocuments limited p.projection = .ok projected ∧
      (MsgFind (demoEnv demoBackend) (requestMsg demoFind)).reply = some
        { sections := [{ Documents :=
            [replyDocument (projected.1.map Value.document) p.sp] }] } ∧
      (projected.1.map Value.document).length = limited.length :=
  ⟨rfl, C6_first_batch_pipeline (demoEnv demoBackend) (requestMsg demoFind) rfl⟩

theorem Unimplemented_some (env : Env) (document : Document) (fields : List String)
    (hf : ∃ f ∈ fields, Document.Has document f = true) :
    Unimplemented env document fields =
      some (Error.NewErrorMsg ErrorCode.ErrNotImplemented (env.unimplementedText document fields)) := by
  unfold Unimplemented
  have : fields.any (fun f => Document.Has document f) = true := by
    rw [List.any_eq_true]
    exact hf
  rw [if_pos this]

/-- C2: a find request that holds at least one of the fields `skip`, `showRecordId`,
`tailable`, `oplogReplay`, `noCursorTimeout`, `awaitData`, `allowPartialResults`,
`collation`, `allowDiskUse`, `let` fails with the error of `common.Unimplemented`, of
kind CommandNotImplemented; there is no reply and no call to the backend, whatever
else the request holds. -/
theorem C2_unimplemented_fields (env : Env) (msg : OpMsg) (document : Document)
    (hd : env.msgDocument msg = .ok document)
    (hf : ∃ f ∈ ["skip", "showRecordId", "tailable", "oplogReplay", "noCursorTimeout",
            "awaitData", "allowPartialResults", "collation", "allowDiskUse", "let"],
          Document.Has document f = true) :
    (MsgFind env msg).reply = none ∧
    (MsgFind env msg).err = Unimplemented env document unimplementedFields ∧
    (∃ text, (MsgFind env msg).err =
      some (Error.NewErrorMsg ErrorCode.ErrNotImplemented text)) ∧
    (MsgFind env msg).calls = [] := by
  have hU := Unimplemented_some env document unimplementedFields hf
  have hp : findParams env document =
      .error (Error.NewErrorMsg ErrorCode.ErrNotImplemented
        (env.unimplementedText document unimplementedFields)) := by
    unfold findParams
    rw [hU]
  have hm : MsgFind env msg =
      { reply := none,
        err := some (Error.NewErrorMsg ErrorCode.ErrNotImplemented
          (env.unimplementedText document unimplementedFields)),
        calls := [] } := by
    simp only [MsgFind, hd, hp]
  rw [hm, hU]
  exact ⟨rfl, rfl, ⟨_, rfl⟩, rfl⟩

/-- The request `find: "values", $db: "test", filter: (v: 42), skip: 1`. -/
theorem C2_unimplemented_fields_witness :
    (MsgFind (demoEnv demoBackend)
      (requestMsg [("find", Value.string "values"), ("$db", Value.string "test"),
        ("filter", Value.document [("v", Value.int32 42)]), ("skip", Value.int32 1)])).reply = none ∧
    (MsgFind (demoEnv demoBackend)
      (requestMsg [("find", Value.string "values"), ("$db", Value.string "test"),
        ("filter", Value.document [("v", Value.int32 42)]), ("skip", Value.int32 1)])).err =
      some (Error.NewErrorMsg ErrorCode.ErrNotImplemented "not implemented") ∧
    (MsgFind (demoEnv demoBackend)
      (requestMsg [("find", Value.string "values"), ("$db", Value.string "test"),
        ("filter", Value.document [("v", Value.int32 42)]), ("skip", Value.int32 1)])).calls = [] :=
  have h := C2_unimplemented_fields (demoEnv demoBackend)
    (requestMsg [("find", Value.string "values"), ("$db", Value.string "test"),
      ("filter", Value.document [("v", Value.int32 42)]), ("skip", Value.int32 1)])
    [("find", Value.string "values"), ("$db", Value.string "test"),
      ("filter", Value.document [("v", Value.int32 42)]), ("skip", Value.int32 1)]
    rfl ⟨"skip", by simp, rfl⟩
  ⟨h.1, h.2.1.trans rfl, h.2.2.2⟩

theorem GetOptionalParam_wrong {T : Type} (env : Env) (cast : Value → Option T)
    (doc : Document) (key : String) (defaultValue : T) (v : Value)
    (hv : Document.Get doc key = some v) (hc : cast v = none) :
    GetOptionalParam env cast doc key defaultValue = .error (env.wrongTypeError key v) := by
  unfold GetOptionalParam
  rw [hv]
  simp only
  rw [hc]

theorem asDocument_none {v : Value} (h : ∀ d, v ≠ Value.document d) : asDocument v = none := by
  cases v <;> simp [asDocument]
  exact h _ rfl

theorem asString_none {v : Value} (h : ∀ s, v ≠ Value.string s) : asString v = none := by
  cases v <;> simp [asString]
  exact h _ rfl

theorem MsgFind_error {env : Env} {msg : OpMsg} {document : Document} {e : Error}
    (hd : env.msgDocument msg = .ok document) (hp : findParams env document = .error e) :
    MsgFind env msg = { reply := none, err := some e, calls := [] } := by
  simp only [MsgFind, hd, hp]

/-- No parameter extraction of a request with one of the listed defects succeeds. -/
theorem findParams_error (env : Env) (document : Document)
    (hfail :
      (∃ v, Document.Get document "filter" = some v ∧ ∀ d, v ≠ Value.document d) ∨
      (∃ v, Document.Get document "sort" = some v ∧ ∀ d, v ≠ Value.document d) ∨
      (∃ v, Document.Get document "projection" = some v ∧ ∀ d, v ≠ Value.document d) ∨
      (∃ l e, Document.Get document "limit" = some l ∧ env.GetWholeNumberParam l = .error e) ∨
      Document.Get document "$db" = none ∨
      (∃ v, Document.Get document "$db" = some v ∧ ∀ s, v ≠ Value.string s) ∨
      (∃ v, Document.Get document (Document.Command document) = some v ∧
        ∀ s, v ≠ Value.string s) ∨
      (∃ v, Document.Get document "comment" = some v ∧ ∀ s, v ≠ Value.string s) ∨
      (∃ f v, Document.Get document "filter" = some (Value.document f) ∧
        Document.Get f "$comment" = some v ∧ ∀ s, v ≠ Value.string s)) :
    ∃ e, findParams env document = .error e := by
  cases hp : findParams env document with
  | error e => exact ⟨e, rfl⟩
  | ok p =>
    exfalso
    obtain ⟨_, hF, hS, hP, hL, hD, hC, comment, hK, hK2⟩ := findParams_ok hp
    rcases hfail with ⟨v, hv, hn⟩ | ⟨v, hv, hn⟩ | ⟨v, hv, hn⟩ | ⟨l, e, hv, hn⟩ | hv |
      ⟨v, hv, hn⟩ | ⟨v, hv, hn⟩ | ⟨v, hv, hn⟩ | ⟨f, v, hf, hv, hn⟩
    · rw [GetOptionalParam_wrong env asDocument document "filter" none v hv
        (asDocument_none hn)] at hF
      cases hF
    · rw [GetOptionalParam_wrong env asDocument document "sort" none v hv
        (asDocument_none hn)] at hS
      cases hS
    · rw [GetOptionalParam_wrong env asDocument document "projection" none v hv
        (asDocument_none hn)] at hP
      cases hP
    · unfold limitParam at hL
      rw [hv] at hL
      simp only at hL
      rw [hn] at hL
      cases hL
    · unfold GetRequiredParam at hD
      rw [hv] at hD
      cases hD
    · unfold GetRequiredParam at hD
      rw [hv] at hD
      simp only at hD
      rw [asString_none hn] at hD
      cases hD
    · have := collectionParam_ok hC
      rw [hv] at this
      cases this
      exact hn _ rfl
    · rw [GetOptionalParam_wrong env asString document "comment" "" v hv
        (asString_none hn)] at hK
      cases hK
    · have hpf : p.filter = some f := by
        unfold GetOptionalParam at hF
        rw [hf] at hF
        simp only [asDocument] at hF
        exact (Except.ok.inj hF).symm
      rw [hpf] at hK2
      unfold filterComment at hK2
      simp only at hK2
      rw [GetOptionalParam_wrong env asString f "$comment" comment v hv
        (asString_none hn)] at hK2
      cases hK2

/-- C7: a find request in which a parameter extraction fails (`filter`, `sort` or
`projection` present but not a document; `limit` present but not a whole number; `$db`
absent or not a string; the collection value not a string; `comment` or the `$comment`
of the filter present but not a string) gets an error and no reply, and neither the
backend nor the evaluator is called.  The error is the one of the first extraction
that fails; for `sort` it is the TypeMismatch error "Expected field sort to be of type
object", for the collection value a BadValue error. -/
theorem C7_extraction_error (env : Env) (msg : OpMsg) (document : Document)
    (hd : env.msgDocument msg = .ok document)
    (hfail :
      (∃ v, Document.Get document "filter" = some v ∧ ∀ d, v ≠ Value.document d) ∨
      (∃ v, Document.Get document "sort" = some v ∧ ∀ d, v ≠ Value.document d) ∨
      (∃ v, Document.Get document "projection" = some v ∧ ∀ d, v ≠ Value.document d) ∨
      (∃ l e, Document.Get document "limit" = some l ∧ env.GetWholeNumberParam l = .error e) ∨
      Document.Get document "$db" = none ∨
      (∃ v, Document.Get document "$db" = some v ∧ ∀ s, v ≠ Value.string s) ∨
      (∃ v, Document.Get document (Document.Command document) = some v ∧
        ∀ s, v ≠ Value.string s) ∨
      (∃ v, Document.Get document "comment" = some v ∧ ∀ s, v ≠ Value.string s) ∨
      (∃ f v, Document.Get document "filter" = some (Value.document f) ∧
        Document.Get f "$comment" = some v ∧ ∀ s, v ≠ Value.string s)) :
    (∃ e, (MsgFind env msg).err = some e) ∧
    (MsgFind env msg).reply = none ∧
    (MsgFind env msg).calls = [] ∧
    (Unimplemented env document unimplementedFields = none →
      (∀ e, GetOptionalParam env asDocument document "filter" none = .error e →
        (MsgFind env msg).err = some e) ∧
      ∀ filter, GetOptionalParam env asDocument document "filter" none = .ok filter →
      (∀ e, GetOptionalParam env asDocument document "sort" none = .error e →
        (MsgFind env msg).err = some (Error.NewErrorMsg ErrorCode.ErrTypeMismatch
          "Expected field sort to be of type object")) ∧
      ∀ sort, GetOptionalParam env asDocument document "sort" none = .ok sort →
      (∀ e, GetOptionalParam env asDocument document "projection" none = .error e →
        (MsgFind env msg).err = some e) ∧
      ∀ projection, GetOptionalParam env asDocument document "projection" none = .ok projection →
      (∀ l e, Document.Get document "limit" = some l → env.GetWholeNumberParam l = .error e →
        (MsgFind env msg).err = some e) ∧
      ∀ limit, limitParam env document = .ok limit →
      (∀ e, GetRequiredParam env asString document "$db" = .error e →
        (MsgFind env msg).err = some e) ∧
      ∀ db, GetRequiredParam env asString document "$db" = .ok db →
      (∀ v, Document.Get document (Document.Command document) = some v →
        (∀ s, v ≠ Value.string s) →
        (MsgFind env msg).err = some (Error.NewErrorMsg ErrorCode.ErrBadValue
          ("collection name has invalid type " ++ env.AliasFromType v))) ∧
      ∀ collection, collectionParam env document = .ok collection →
      (∀ e, GetOptionalParam env asString document "comment" "" = .error e →
        (MsgFind env msg).err = some e) ∧
      ∀ comment, GetOptionalParam env asString document "comment" "" = .ok comment →
      ∀ f e, filter = some f → GetOptionalParam env asString f "$comment" comment = .error e →
        (MsgFind env msg).err = some e) := by
  obtain ⟨e, he⟩ := findParams_error env document hfail
  rw [MsgFind_error hd he]
  refine ⟨⟨e, rfl⟩, rfl, rfl, ?_⟩
  intro hU
  unfold findParams at he
  rw [hU] at he
  simp only at he
  refine ⟨?_, ?_⟩
  · intro e1 h1
    rw [h1] at he
    cases he; rfl
  intro filter hF
  rw [hF] at he
  simp only at he
  refine ⟨?_, ?_⟩
  · intro e1 h1
    rw [h1] at he
    cases he; rfl
  intro sort hS
  rw [hS] at he
  simp only at he
  refine ⟨?_, ?_⟩
  · intro e1 h1
    rw [h1] at he
    cases he; rfl
  intro projection hP
  rw [hP] at he
  simp only at he
  refine ⟨?_, ?_⟩
  · intro l e1 hl h1
    unfold limitParam at he
    rw [hl] at he
    simp only at he
    rw [h1] at he
    cases he; rfl
  intro limit hL
  rw [hL] at he
  simp only at he
  refine ⟨?_, ?_⟩
  · intro e1 h1
    rw [h1] at he
    cases he; rfl
  intro db hD
  rw [hD] at he
  simp only at he
  refine ⟨?_, ?_⟩
  · intro v hv hn
    unfold collectionParam at he
    rw [hv] at he
    simp only at he
    rw [asString_none hn] at he
    cases he; rfl
  intro collection hC
  rw [hC] at he
  simp only at he
  refine ⟨?_, ?_⟩
  · intro e1 h1
    rw [h1] at he
    cases he; rfl
  intro comment hK f e1 hf h1
  rw [hK] at he
  simp only at he
  subst hf
  unfold filterComment at he
  simp only at he
  rw [h1] at he
  cases he; rfl

/-- C7, on the request `badSortFind`: `sort` is the Int32 1. -/
theorem C7_extraction_error_witness :
    (MsgFind (demoEnv demoBackend) (requestMsg badSortFind)).err =
      some (Error.NewErrorMsg ErrorCode.ErrTypeMismatch "Expected field sort to be of type object") ∧
    (MsgFind (demoEnv demoBackend) (requestMsg badSortFind)).reply = none ∧
    (MsgFind (demoEnv demoBackend) (requestMsg badSortFind)).calls = [] :=
  have h := C7_extraction_error (demoEnv demoBackend) (requestMsg badSortFind) badSortFind rfl
    (Or.inr (Or.inl ⟨Value.int32 1, rfl, fun _ hv => Value.noConfusion hv⟩))
  ⟨((h.2.2.2 rfl).2 none rfl).1 _ rfl, h.2.1, h.2.2.1⟩

/-- C10 as stated fails: on the request `commentFind` the evaluator is called, for the
first stored document, with a predicate that still holds the `$comment` field. -/
theorem C10_comment_removed_counterexample :
    Call.FilterDocument [("_id", Value.int32 1), ("v", Value.int32 42)] (some commentFilter) ∈
      (MsgFind (demoEnv demoBackend) (requestMsg commentFind)).calls ∧
    Document.Has commentFilter "$comment" = true :=
  ⟨List.mem_cons_of_mem _ (List.mem_cons_self _ _), rfl⟩

/-- C10, amended: in find, a string `$comment` field of the filter is the query comment
handed to the backend fetch, before the top-level `comment` option; it is not removed
from the predicate: the predicate evaluated against each fetched document is the
`filter` document of the request as it came, `$comment` included. -/
theorem C10_comment_captured_filter_kept (env : Env) (msg : OpMsg) (document : Document)
    (p : FindParams) (hd : env.msgDocument msg = .ok document)
    (hp : findParams env document = .ok p) :
    p.filter = (match Document.Get document "filter" with
                | some (Value.document f) => some f
                | _ => none) ∧
    p.sp.comment = (match p.filter.bind (fun f => Document.Get f "$comment") with
                    | some (Value.string s) => s
                    | _ =>
                      match Document.Get document "comment" with
                      | some (Value.string s) => s
                      | _ => "") ∧
    ∃ rest, (MsgFind env msg).calls = Call.fetch p.sp :: rest ∧
      ∀ c ∈ rest, ∃ doc, c = Call.FilterDocument doc p.filter := by
  obtain ⟨_, hF, _, _, _, _, _, comment, hK, hK2⟩ := findParams_ok hp
  refine ⟨?_, ?_, ?_⟩
  · unfold GetOptionalParam at hF
    cases hg : Document.Get document "filter" with
    | none =>
      rw [hg] at hF
      exact (Except.ok.inj hF).symm
    | some v =>
      rw [hg] at hF
      simp only at hF
      cases hv : asDocument v with
      | none => rw [hv] at hF; cases hF
      | some d =>
        rw [hv] at hF
        obtain ⟨f, hvf, hdf⟩ := asDocument_some hv
        subst hvf
        simp only
        rw [← Except.ok.inj hF, hdf]
  · have hcomment : comment = (match Document.Get document "comment" with
        | some (Value.string s) => s
        | _ => "") := by
      unfold GetOptionalParam at hK
      cases hg : Document.Get document "comment" with
      | none =>
        rw [hg] at hK
        exact (Except.ok.inj hK).symm
      | some v =>
        rw [hg] at hK
        simp only at hK
        cases hv : asString v with
        | none => rw [hv] at hK; cases hK
        | some t =>
          rw [hv] at hK
          rw [asString_some hv]
          exact (Except.ok.inj hK).symm
    unfold filterComment at hK2
    cases hf : p.filter with
    | none =>
      rw [hf] at hK2
      simp only [Option.bind] at hK2 ⊢
      rw [← Except.ok.inj hK2, hcomment]
    | some f =>
      rw [hf] at hK2
      simp only [Option.bind] at hK2 ⊢
      unfold GetOptionalParam at hK2
      cases hg : Document.Get f "$comment" with
      | none =>
        rw [hg] at hK2
        simp only at hK2 ⊢
        rw [← Except.ok.inj hK2, hcomment]
      | some v =>
        rw [hg] at hK2
        simp only at hK2
        cases hv : asString v with
        | none => rw [hv] at hK2; cases hK2
        | some t =>
          rw [hv] at hK2
          rw [asString_some hv]
          exact (Except.ok.inj hK2).symm
  · have hm : MsgFind env msg = findRun env p := by
      simp only [MsgFind, hd, hp]
    rw [hm]
    exact findRun_calls env p

/-- C10 amended, on the request `commentFind`: the comment of the query is "test", and
the predicate handed to the evaluator is `commentFilter`. -/
theorem C10_comment_captured_filter_kept_witness :
    (some commentFilter : Option Document) =
      (match Document.Get commentFind "filter" with
       | some (Value.document f) => some f
       | _ => none) ∧
    "test" = (match (some commentFilter : Option Document).bind
                (fun f => Document.Get f "$comment") with
              | some (Value.string s) => s
              | _ =>
                match Document.Get commentFind "comment" with
                | some (Value.string s) => s
                | _ => "") ∧
    ∃ rest, (MsgFind (demoEnv demoBackend) (requestMsg commentFind)).calls =
        Call.fetch { db := "test", collection := "values", comment := "test" } :: rest ∧
      ∀ c ∈ rest, ∃ doc, c = Call.FilterDocument doc (some commentFilter) :=
  C10_comment_captured_filter_kept (demoEnv demoBackend) (requestMsg commentFind) commentFind
    { filter := some commentFilter, sort := none, projection := none, limit := 0,
      sp := { db := "test", collection := "values", comment := "test" } } rfl rfl

theorem splitPath_ne_nil (cs : List Char) : splitPath cs ≠ [] := by
  cases cs with
  | nil => simp [splitPath]
  | cons c cs =>
    unfold splitPath
    split
    · simp
    · split <;> simp

theorem splitPath_segment (a : List Char) (h : '.' ∉ a) : splitPath a = [a] := by
  induction a with
  | nil => rfl
  | cons c cs ih =>
    have hc : c ≠ '.' := fun e => h (by simp [e])
    have hcs : '.' ∉ cs := fun e => h (by simp [e])
    unfold splitPath
    rw [if_neg hc, ih hcs]

theorem splitPath_append (a rest : List Char) (h : '.' ∉ a) :
    splitPath (a ++ '.' :: rest) = a :: splitPath rest := by
  induction a with
  | nil => simp [splitPath]
  | cons c cs ih =>
    have hc : c ≠ '.' := fun e => h (by simp [e])
    have hcs : '.' ∉ cs := fun e => h (by simp [e])
    rw [List.cons_append]
    simp only [splitPath, if_neg hc, ih hcs]

theorem intercalate_go_data (sep : String) (rest : List String) :
    ∀ acc : String, (String.intercalate.go acc sep rest).data =
      acc.data ++ (rest.map (fun a => sep.data ++ a.data)).flatten := by
  induction rest with
  | nil => intro acc; simp [String.intercalate.go]
  | cons a rest ih =>
    intro acc
    simp [String.intercalate.go, ih, String.data_append, List.append_assoc]

theorem splitPath_dotted (s : String) (rest : List String)
    (hs : '.' ∉ s.toList) (hrest : ∀ t ∈ rest, '.' ∉ t.toList) :
    splitPath (s.data ++ (rest.map (fun a => ".".data ++ a.data)).flatten) =
      (s :: rest).map String.toList := by
  induction rest generalizing s with
  | nil => simpa using splitPath_segment s.data hs
  | cons t rest ih =>
    have ht : '.' ∉ t.toList := hrest t (by simp)
    have hr : ∀ u ∈ rest, '.' ∉ u.toList := fun u hu => hrest u (by simp [hu])
    have := ih t ht hr
    simp only [List.map_cons, List.flatten_cons] at this ⊢
    have hs2 : '.' ∉ s.data := hs
    rw [List.append_assoc, List.singleton_append, splitPath_append s.data _ hs2, this]
    rfl

theorem accessors_segments (segs : List String) (h : segs ≠ []) :
    accessors (segs.map String.toList) =
      String.join (segs.dropLast.map (fun s => "->>'" ++ s ++ "'")) ++
        ("->'" ++ segs.getLast h ++ "'") := by
  induction segs with
  | nil => exact absurd rfl h
  | cons s rest ih =>
    cases rest with
    | nil =>
      simp [accessors, String.join]
    | cons t rest =>
      have := ih (by simp)
      simp only [List.map_cons] at this ⊢
      unfold accessors
      rw [this]
      apply String.ext
      simp [String.join_eq, String.data_append, List.append_assoc]

/-- C3: for a dotted path with k ≥ 1 segments without dots, `FieldToSql` returns
`_jsonb`, then `->>'s'` for each of the first k-1 segments in order, then `->'s'` for
the last one. -/
theorem C3_field_to_sql (segs : List String) (h : segs ≠ [])
    (hdot : ∀ s ∈ segs, '.' ∉ s.toList) :
    FieldToSql (String.intercalate "." segs) =
      "_jsonb" ++ String.join (segs.dropLast.map (fun s => "->>'" ++ s ++ "'")) ++
        "->'" ++ segs.getLast h ++ "'" := by
  cases segs with
  | nil => exact absurd rfl h
  | cons s rest =>
    have hs : '.' ∉ s.toList := hdot s (by simp)
    have hrest : ∀ t ∈ rest, '.' ∉ t.toList := fun t ht => hdot t (by simp [ht])
    unfold FieldToSql
    have hdata : (String.intercalate "." (s :: rest)).toList =
        s.data ++ (rest.map (fun a => ".".data ++ a.data)).flatten := by
      simp only [String.intercalate, String.toList]
      exact intercalate_go_data "." rest s
    rw [hdata, splitPath_dotted s rest hs hrest, accessors_segments (s :: rest) h]
    simp only [String.append_assoc]

/-- C3 on the three paths of `TestFieldToSql`. -/
theorem C3_field_to_sql_witness :
    FieldToSql "quantity" = "_jsonb->'quantity'" ∧
    FieldToSql "item.quantity" = "_jsonb->>'item'->'quantity'" ∧
    FieldToSql "item.quantity.today" = "_jsonb->>'item'->>'quantity'->'today'" :=
  ⟨C3_field_to_sql ["quantity"] (by simp) (by decide),
   C3_field_to_sql ["item", "quantity"] (by simp) (by decide),
   C3_field_to_sql ["item", "quantity", "today"] (by simp) (by decide)⟩

theorem parse_scalar_pair (f : String) (hf : isOperatorName f = false) (x : Value)
    (hx : ∀ sub, x = Value.document sub → sub.any (fun kv => isOperatorName kv.1) = false) :
    ParseMatchStage [(f, x)] = .ok { filters := [Filter.Comparison f "=" x] } := by
  cases x with
  | document sub =>
    have := hx sub rfl
    simp [ParseMatchStage, parsePredicate, parsePair, hf, this]
  | _ => simp [ParseMatchStage, parsePredicate, parsePair, hf]

theorem parse_operator_pair (f : String) (hf : isOperatorName f = false)
    (name op : String) (v : Value)
    (hop : (name, op) ∈ [("$eq", "="), ("$ne", "<>"), ("$gt", ">"), ("$gte", ">="),
      ("$lt", "<"), ("$lte", "<=")]) :
    ParseMatchStage [(f, Value.document [(name, v)])] =
      .ok { filters := [Filter.Comparison f op v] } := by
  simp only [List.mem_cons, Prod.mk.injEq, List.mem_singleton, List.not_mem_nil, or_false] at hop
  have e1 : isOperatorName "$eq" = true := rfl
  have e2 : isOperatorName "$ne" = true := rfl
  have e3 : isOperatorName "$gt" = true := rfl
  have e4 : isOperatorName "$gte" = true := rfl
  have e5 : isOperatorName "$lt" = true := rfl
  have e6 : isOperatorName "$lte" = true := rfl
  rcases hop with ⟨h1, h2⟩ | ⟨h1, h2⟩ | ⟨h1, h2⟩ | ⟨h1, h2⟩ | ⟨h1, h2⟩ | ⟨h1, h2⟩ <;>
    subst h1 <;> subst h2 <;>
    simp [ParseMatchStage, parsePredicate, parsePair, hf, parseOperators, parseOperator,
      e1, e2, e3, e4, e5, e6]

theorem ToSql_comparison (f op : String) (v : Value) :
    (Filter.Comparison f op v).ToSql = some (FieldToSql f ++ " " ++ op ++ " " ++ "$1") := by
  simp only [Filter.ToSql, lower, Option.map]
  congr 1
  apply String.ext
  simp [String.data_append]
  rfl

/-- C4: the first filter of `ParseMatchStage` on a single-pair predicate, a path with a
value that is not a document or with a one-operator document of one of the six
comparisons, lowers by `ToSql` to `FieldToSql(field)`, a blank, the backend text of the
operator, a blank and the placeholder `$1`. -/
theorem C4_single_filter_to_sql (f : String) (hf : isOperatorName f = false) :
    (∀ x : Value, (∀ sub, x ≠ Value.document sub) →
      ∃ stage, ParseMatchStage [(f, x)] = .ok stage ∧
        stage.GetFilters.head? = some (Filter.Comparison f "=" x) ∧
        (Filter.Comparison f "=" x).ToSql = some (FieldToSql f ++ " " ++ "=" ++ " " ++ "$1")) ∧
    (∀ (name op : String) (v : Value),
      (name, op) ∈ [("$eq", "="), ("$ne", "<>"), ("$gt", ">"), ("$gte", ">="),
        ("$lt", "<"), ("$lte", "<=")] →
      ∃ stage, ParseMatchStage [(f, Value.document [(name, v)])] = .ok stage ∧
        stage.GetFilters.head? = some (Filter.Comparison f op v) ∧
        (Filter.Comparison f op v).ToSql = some (FieldToSql f ++ " " ++ op ++ " " ++ "$1")) := by
  refine ⟨?_, ?_⟩
  · intro x hx
    exact ⟨_, parse_scalar_pair f hf x (fun sub h => absurd h (hx sub)), rfl,
      ToSql_comparison f "=" x⟩
  · intro name op v hop
    exact ⟨_, parse_operator_pair f hf name op v hop, rfl, ToSql_comparison f op v⟩

/-- C4 on the predicates of `TestToSql` and `TestNestedToSql`, and on `quantity: 1`. -/
theorem C4_single_filter_to_sql_witness :
    (∃ stage, ParseMatchStage [("quantity", Value.document [("$gt", Value.int32 1)])] = .ok stage ∧
      stage.GetFilters.head? = some (Filter.Comparison "quantity" ">" (Value.int32 1)) ∧
      (Filter.Comparison "quantity" ">" (Value.int32 1)).ToSql =
        some "_jsonb->'quantity' > $1") ∧
    (∃ stage,
      ParseMatchStage [("item.quantity", Value.document [("$gt", Value.int32 1)])] = .ok stage ∧
      stage.GetFilters.head? = some (Filter.Comparison "item.quantity" ">" (Value.int32 1)) ∧
      (Filter.Comparison "item.quantity" ">" (Value.int32 1)).ToSql =
        some "_jsonb->>'item'->'quantity' > $1") ∧
    (∃ stage, ParseMatchStage [("quantity", Value.int32 1)] = .ok stage ∧
      stage.GetFilters.head? = some (Filter.Comparison "quantity" "=" (Value.int32 1)) ∧
      (Filter.Comparison "quantity" "=" (Value.int32 1)).ToSql =
        some "_jsonb->'quantity' = $1") :=
  ⟨(C4_single_filter_to_sql "quantity" rfl).2 "$gt" ">" (Value.int32 1) (by simp),
   (C4_single_filter_to_sql "item.quantity" rfl).2 "$gt" ">" (Value.int32 1) (by simp),
   (C4_single_filter_to_sql "quantity" rfl).1 (Value.int32 1)
     (fun _ h => Value.noConfusion h)⟩

theorem comparisonOperators_isOperatorName (name : String)
    (h : name ∈ comparisonOperators) : isOperatorName name = true := by
  simp only [comparisonOperators, List.mem_cons, List.mem_singleton, List.not_mem_nil,
    or_false] at h
  rcases h with h | h | h | h | h | h | h | h <;> subst h <;> rfl

theorem parseOperator_ok (f name : String) (operand : Value)
    (hn : name ∈ comparisonOperators) (hb : name = "$exists" → ∃ b, operand = Value.bool b) :
    ∃ g, parseOperator f name operand = .ok [g] ∧ g.field = some f := by
  simp only [comparisonOperators, List.mem_cons, List.mem_singleton, List.not_mem_nil,
    or_false] at hn
  rcases hn with h | h | h | h | h | h | h | h
  · subst h; exact ⟨Filter.Comparison f "=" operand, by simp [parseOperator], rfl⟩
  · subst h; exact ⟨Filter.Comparison f "<>" operand, by simp [parseOperator], rfl⟩
  · subst h; exact ⟨Filter.Comparison f ">" operand, by simp [parseOperator], rfl⟩
  · subst h; exact ⟨Filter.Comparison f ">=" operand, by simp [parseOperator], rfl⟩
  · subst h; exact ⟨Filter.Comparison f "<" operand, by simp [parseOperator], rfl⟩
  · subst h; exact ⟨Filter.Comparison f "<=" operand, by simp [parseOperator], rfl⟩
  · obtain ⟨b, hbool⟩ := hb h
    subst h
    subst hbool
    exact ⟨Filter.Exists f b, by simp [parseOperator], rfl⟩
  · subst h; exact ⟨Filter.TypeIs f operand, by simp [parseOperator], rfl⟩

theorem parseOperator_refused (f name : String) (operand : Value)
    (h : ¬ (name ∈ comparisonOperators ∧ (name = "$exists" → ∃ b, operand = Value.bool b))) :
    parseOperator f name operand = .error ErrorCode.ErrBadValue := by
  by_cases hn : name ∈ comparisonOperators
  · have hb : ¬ (name = "$exists" → ∃ b, operand = Value.bool b) := fun hb => h ⟨hn, hb⟩
    rw [Classical.not_imp] at hb
    obtain ⟨he, hnb⟩ := hb
    subst he
    cases operand with
    | bool b => exact absurd ⟨b, rfl⟩ hnb
    | _ => simp [parseOperator]
  · simp only [comparisonOperators, List.mem_cons, List.mem_singleton, List.not_mem_nil,
      or_false, not_or] at hn
    obtain ⟨h1, h2, h3, h4, h5, h6, h7, h8⟩ := hn
    simp [parseOperator, h1, h2, h3, h4, h5, h6, h7, h8]

theorem parseOperators_error (f : String) (sub : List (String × Value)) (e : ErrorCode)
    (h : parseOperators f sub = .error e) : e = ErrorCode.ErrBadValue := by
  induction sub generalizing e with
  | nil => simp [parseOperators] at h
  | cons kv rest ih =>
    obtain ⟨name, operand⟩ := kv
    unfold parseOperators at h
    by_cases hacc : name ∈ comparisonOperators ∧
        (name = "$exists" → ∃ b, operand = Value.bool b)
    · obtain ⟨g, hg, _⟩ := parseOperator_ok f name operand hacc.1 hacc.2
      rw [hg] at h
      simp only at h
      cases hr : parseOperators f rest with
      | error e2 =>
        rw [hr] at h
        simp only at h
        rw [← Except.error.inj h]
        exact ih e2 hr
      | ok gs => rw [hr] at h; simp at h
    · rw [parseOperator_refused f name operand hacc] at h
      exact (Except.error.inj h).symm

theorem parseOperators_ok (f : String) (sub : List (String × Value))
    (h : ∀ kv ∈ sub, kv.1 ∈ comparisonOperators ∧
      (kv.1 = "$exists" → ∃ b, kv.2 = Value.bool b)) :
    ∃ fs, parseOperators f sub = .ok fs ∧ fs.length = sub.length ∧
      ∀ g ∈ fs, g.field = some f := by
  induction sub with
  | nil => exact ⟨[], rfl, rfl, by simp⟩
  | cons kv rest ih =>
    obtain ⟨name, operand⟩ := kv
    obtain ⟨g, hg, hgf⟩ := parseOperator_ok f name operand (h (name, operand) (by simp)).1
      (h (name, operand) (by simp)).2
    obtain ⟨gs, hgs, hlen, hfield⟩ := ih (fun kv hkv => h kv (by simp [hkv]))
    refine ⟨g :: gs, ?_, by simp [hlen], ?_⟩
    · unfold parseOperators
      rw [hg]
      simp only
      rw [hgs]
      rfl
    · intro g2 hg2
      rcases List.mem_cons.mp hg2 with h2 | h2
      · rw [h2]; exact hgf
      · exact hfield g2 h2

theorem parseOperators_refused (f : String) (sub : List (String × Value))
    (h : ∃ kv ∈ sub, ¬ (kv.1 ∈ comparisonOperators ∧
      (kv.1 = "$exists" → ∃ b, kv.2 = Value.bool b))) :
    parseOperators f sub = .error ErrorCode.ErrBadValue := by
  cases hr : parseOperators f sub with
  | error e => rw [parseOperators_error f sub e hr]
  | ok fs =>
    exfalso
    induction sub generalizing fs with
    | nil => obtain ⟨kv, hkv, _⟩ := h; simp at hkv
    | cons kv rest ih =>
      obtain ⟨name, operand⟩ := kv
      unfold parseOperators at hr
      by_cases hacc : name ∈ comparisonOperators ∧
          (name = "$exists" → ∃ b, operand = Value.bool b)
      · obtain ⟨g, hg, _⟩ := parseOperator_ok f name operand hacc.1 hacc.2
        rw [hg] at hr
        simp only at hr
        cases hrest : parseOperators f rest with
        | error e2 => rw [hrest] at hr; simp at hr
        | ok gs =>
          obtain ⟨kv, hkv, hbad⟩ := h
          rcases List.mem_cons.mp hkv with h2 | h2
          · subst h2
            exact hbad hacc
          · exact ih ⟨kv, h2, hbad⟩ gs hrest
      · rw [parseOperator_refused f name operand hacc] at hr
        simp at hr

theorem parse_document_pair (f : String) (hf : isOperatorName f = false)
    (sub : List (String × Value)) (hany : sub.any (fun kv => isOperatorName kv.1) = true) :
    ParseMatchStage [(f, Value.document sub)] =
      (if sub.all (fun kv => isOperatorName kv.1) then
        match parseOperators f sub with
        | .error e => .error e
        | .ok fs => .ok { filters := fs }
      else .error ErrorCode.ErrBadValue) := by
  cases hall : sub.all (fun kv => isOperatorName kv.1) with
  | false =>
    simp [ParseMatchStage, parsePredicate, parsePair, hf, hany, hall]
  | true =>
    cases hp : parseOperators f sub with
    | error e => simp [ParseMatchStage, parsePredicate, parsePair, hf, hany, hall, hp]
    | ok fs => simp [ParseMatchStage, parsePredicate, parsePair, hf, hany, hall, hp]

/-- C5 as stated fails: the path `quantity` does not start with `$`, and three
single-pair predicates over it are refused with BadValue: the value that mixes the
operator `$gt` with the plain field `qty`, the value with the operator `$foo`, which is
none of §4.4, and the value that gives `$exists` the Int32 1. -/
theorem C5_refused_documents_counterexample :
    isOperatorName "quantity" = false ∧
    ParseMatchStage
      [("quantity", Value.document [("$gt", Value.int32 1), ("qty", Value.int32 2)])] =
      .error ErrorCode.ErrBadValue ∧
    ParseMatchStage [("quantity", Value.document [("$foo", Value.int32 1)])] =
      .error ErrorCode.ErrBadValue ∧
    ParseMatchStage [("quantity", Value.document [("$exists", Value.int32 1)])] =
      .error ErrorCode.ErrBadValue :=
  ⟨rfl, rfl, rfl, rfl⟩

/-- C5, amended: for a predicate document with a single pair (f, x) where f does not
start with `$`, `ParseMatchStage` succeeds unless x is a document that holds an operator
field together with a field that is no operator of §4.4 (a plain field, another `$`
name) or gives `$exists` an operand that is not a boolean, and then it is refused with
BadValue.  When it succeeds, the first element of `GetFilters()` has field f verbatim;
when x has no operator field (a scalar, an array, an operator-free document) the
filters are that one filter, with op "=" and value x unchanged; when x is a one-operator
document of one of the six comparisons they are one filter with the backend text of
the operator (">" for `$gt`) as op and the operand as value. -/
theorem C5_single_pair_parse (f : String) (hf : isOperatorName f = false) (x : Value) :
    ((∀ sub, x = Value.document sub → sub.any (fun kv => isOperatorName kv.1) = true →
        ∀ kv ∈ sub, kv.1 ∈ comparisonOperators ∧
          (kv.1 = "$exists" → ∃ b, kv.2 = Value.bool b)) →
      ∃ stage first, ParseMatchStage [(f, x)] = .ok stage ∧
        stage.GetFilters.head? = some first ∧ first.field = some f) ∧
    ((∀ sub, x = Value.document sub → sub.any (fun kv => isOperatorName kv.1) = false) →
      ∃ stage, ParseMatchStage [(f, x)] = .ok stage ∧
        stage.GetFilters = [Filter.Comparison f "=" x]) ∧
    (∀ (name op : String) (v : Value),
      (name, op) ∈ [("$eq", "="), ("$ne", "<>"), ("$gt", ">"), ("$gte", ">="),
        ("$lt", "<"), ("$lte", "<=")] →
      x = Value.document [(name, v)] →
      ∃ stage, ParseMatchStage [(f, x)] = .ok stage ∧
        stage.GetFilters = [Filter.Comparison f op v]) ∧
    (¬ (∀ sub, x = Value.document sub → sub.any (fun kv => isOperatorName kv.1) = true →
        ∀ kv ∈ sub, kv.1 ∈ comparisonOperators ∧
          (kv.1 = "$exists" → ∃ b, kv.2 = Value.bool b)) →
      ParseMatchStage [(f, x)] = .error ErrorCode.ErrBadValue) := by
  refine ⟨?_, ?_, ?_, ?_⟩
  · intro hacc
    by_cases hplain : ∀ sub, x = Value.document sub →
        sub.any (fun kv => isOperatorName kv.1) = false
    · exact ⟨_, _, parse_scalar_pair f hf x hplain, rfl, rfl⟩
    · rw [Classical.not_forall] at hplain
      obtain ⟨sub, hsub⟩ := hplain
      rw [Classical.not_imp] at hsub
      obtain ⟨hx, hany⟩ := hsub
      rw [Bool.not_eq_false] at hany
      subst hx
      have hall := hacc sub rfl hany
      obtain ⟨fs, hfs, hlen, hfield⟩ := parseOperators_ok f sub hall
      have hallop : sub.all (fun kv => isOperatorName kv.1) = true := by
        rw [List.all_eq_true]
        intro kv hkv
        exact comparisonOperators_isOperatorName kv.1 (hall kv hkv).1
      have hparse := parse_document_pair f hf sub hany
      rw [hallop, if_pos rfl, hfs] at hparse
      cases fs with
      | nil =>
        cases sub with
        | nil => simp at hany
        | cons _ _ => simp at hlen
      | cons g gs => exact ⟨_, g, hparse, rfl, hfield g (by simp)⟩
  · intro hx
    exact ⟨_, parse_scalar_pair f hf x hx, rfl⟩
  · intro name op v hop hx
    subst hx
    exact ⟨_, parse_operator_pair f hf name op v hop, rfl⟩
  · intro hnot
    rw [Classical.not_forall] at hnot
    obtain ⟨sub, hsub⟩ := hnot
    rw [Classical.not_imp] at hsub
    obtain ⟨hx, hsub⟩ := hsub
    rw [Classical.not_imp] at hsub
    obtain ⟨hany, hbad⟩ := hsub
    subst hx
    rw [parse_document_pair f hf sub hany]
    split
    · rw [Classical.not_forall] at hbad
      obtain ⟨kv, hkv⟩ := hbad
      rw [Classical.not_imp] at hkv
      rw [parseOperators_refused f sub ⟨kv, hkv.1, hkv.2⟩]
    · rfl

/-- C5 amended, on the predicates of `TestSimpleMatchStage` and `TestNestedMatchStage`,
and on `quantity: ($exists: true, $gt: 1)`, whose first filter has the field
`quantity`. -/
theorem C5_single_pair_parse_witness :
    (∃ stage, ParseMatchStage [("quantity", Value.int32 1)] = .ok stage ∧
      stage.GetFilters = [Filter.Comparison "quantity" "=" (Value.int32 1)]) ∧
    (∃ stage,
      ParseMatchStage [("item.quantity", Value.document [("$gt", Value.int32 1)])] = .ok stage ∧
      stage.GetFilters = [Filter.Comparison "item.quantity" ">" (Value.int32 1)]) ∧
    (∃ stage first,
      ParseMatchStage [("quantity", Value.document
        [("$exists", Value.bool true), ("$gt", Value.int32 1)])] = .ok stage ∧
      stage.GetFilters.head? = some first ∧ first.field = some "quantity") :=
  ⟨(C5_single_pair_parse "quantity" rfl (Value.int32 1)).2.1 (fun _ h => Value.noConfusion h),
   (C5_single_pair_parse "item.quantity" rfl
      (Value.document [("$gt", Value.int32 1)])).2.2.1 "$gt" ">" (Value.int32 1) (by simp) rfl,
   (C5_single_pair_parse "quantity" rfl
      (Value.document [("$exists", Value.bool true), ("$gt", Value.int32 1)])).1
      (by
        intro sub hsub _ kv hkv
        cases hsub
        simp only [List.mem_cons, List.mem_singleton, List.not_mem_nil, or_false] at hkv
        rcases hkv with h | h <;> subst h
        · exact ⟨by simp [comparisonOperators], fun _ => ⟨true, rfl⟩⟩
        · exact ⟨by simp [comparisonOperators], fun h => absurd h (by decide)⟩)⟩

theorem filter_changed_all (e : UpdateElement) (l : List Document)
    (h : ∀ d ∈ l, Value.beqFields (e.u d) d = false) :
    (l.filter (fun d => !Value.beqFields (e.u d) d)) = l := by
  rw [List.filter_eq_self]
  intro d hd
  simp [h d hd]

/-- C9: an `update` command with a single element in `updates`, whose selector matches
m ≥ 1 documents of the collection and whose update operator changes each matched
document, is answered by `n`, `nModified` and `ok: 1.0`, with n = nModified = 1 when
`multi` is false and n = nModified = m when `multi` is true. -/
theorem C9_multi_flag (freshId : Value) (collection : List Document) (e : UpdateElement)
    (hm : 1 ≤ (collection.filter e.q).length)
    (hchange : ∀ d ∈ collection, e.q d = true → Value.beqFields (e.u d) d = false) :
    updateReply freshId collection [e] =
      [("n", countValue (if e.multi then (collection.filter e.q).length else 1)),
       ("nModified", countValue (if e.multi then (collection.filter e.q).length else 1)),
       ("ok", Value.double 0x3FF0000000000000)] := by
  have hne : (collection.filter e.q).isEmpty = false := by
    cases hl : collection.filter e.q with
    | nil => rw [hl] at hm; simp at hm
    | cons _ _ => rfl
  have htargets : ∀ d ∈ updateTargets e collection, Value.beqFields (e.u d) d = false := by
    intro d hd
    have hmem : d ∈ collection.filter e.q := by
      unfold updateTargets at hd
      split at hd
      · exact hd
      · exact List.mem_of_mem_take hd
    rw [List.mem_filter] at hmem
    exact hchange d hmem.1 hmem.2
  have hlen : (updateTargets e collection).length =
      if e.multi then (collection.filter e.q).length else 1 := by
    unfold updateTargets
    cases e.multi with
    | true => simp
    | false =>
      simp only [Bool.false_eq_true, if_false, List.length_take]
      omega
  have hstep : updateElement freshId collection e =
      ({ n := if e.multi then (collection.filter e.q).length else 1,
         nModified := if e.multi then (collection.filter e.q).length else 1,
         upserted := [] },
       applyUpdate e collection) := by
    simp only [updateElement, hne, Bool.false_and, Bool.false_eq_true, if_false,
      filter_changed_all e _ htargets, hlen]
  simp only [updateReply, updateAll, hstep, Nat.add_zero, List.append_nil]
  rfl

/-- C9 on the element of `TestMultiFlag` over `seeded`, six of whose documents have
`v` 42: 1 and 1 with `multi` false, 6 and 6 with `multi` true. -/
theorem C9_multi_flag_witness :
    updateReply Value.null seeded [set43 false] =
      [("n", Value.int32 1), ("nModified", Value.int32 1),
       ("ok", Value.double 0x3FF0000000000000)] ∧
    updateReply Value.null seeded [set43 true] =
      [("n", Value.int32 6), ("nModified", Value.int32 6),
       ("ok", Value.double 0x3FF0000000000000)] :=
  ⟨C9_multi_flag Value.null seeded (set43 false) (by decide) (by decide),
   C9_multi_flag Value.null seeded (set43 true) (by decide) (by decide)⟩

end FerretDB
